import Mathlib

/-!
Shallow embedding of rgrep (src/lib.rs): the context search engine
(`search`, lib.rs lines 179-249), the argument parser (`Config::build`,
lines 29-128) and the pattern compiler (`build_regex`, lines 131-148).

Output records model the engine's pushes into its result vector.  A content
line is recorded with its 0-based index, its raw text, and whether the
match-span highlighting pass (regex.replace_all at lib.rs 231-237, applied
to the current line exactly when color is on) ran on it; the backfill loop
at lib.rs 219-221 pushes raw lines, so those records carry `false`.
Presentation details (ANSI styling and the path / line-number prefixes of
format_line) are a rendering of these records and are owned by the
renderer per spec §6; no claim depends on the rendered bytes.
-/

/-- Output records of the context search engine (spec §3 "Output Record"):
a group separator, a content line (0-based index, raw text, and whether the
highlighting pass ran on it), or the single count of count mode. -/
inductive Rec where
  | sep (text : String)
  | line (index : Nat) (content : String) (highlighted : Bool)
  | count (n : Nat)
deriving DecidableEq

/-- lib.rs 7-26: the configuration structure. -/
structure Config where
  query : String
  file_path : String
  ignore_case : Bool
  invert_match : Bool
  word_regexp : Bool
  line_regexp : Bool
  count_matches : Bool
  color : Bool
  line_number : Bool
  recursive : Bool
  after_context : Nat
  before_context : Nat
  group_separator : String
deriving DecidableEq

/-- The per-invocation loop state of search (lib.rs 186-190) together with
the carried needs_separator flag (passed to search by mutable reference). -/
structure SearchState where
  results : List Rec
  matchCount : Nat
  afterCnt : Nat
  lastMatchIndex : Nat
  needsSep : Bool
deriving DecidableEq

def pushRec (st : SearchState) (r : Rec) : SearchState :=
  { st with results := st.results ++ [r] }

/-- lib.rs 200-209: group separator emission. -/
def sepPhase (cfg : Config) (st : SearchState) : SearchState :=
  if st.needsSep = true ∧ st.afterCnt = 0 ∧ (0 < cfg.after_context ∨ 0 < cfg.before_context) then
    pushRec st (Rec.sep cfg.group_separator)
  else st

/-- lib.rs 212-222: before-context backfill, including the separator
retraction pop at line 217 (Vec::pop removes the last element; on an empty
vector it is a no-op).  Nat subtraction models usize saturating_sub. -/
def beforePhase (cfg : Config) (lines : List String) (index : Nat) (st : SearchState) :
    SearchState :=
  if 0 < cfg.before_context ∧ st.afterCnt = 0 then
    let start := max (index - cfg.before_context) (st.lastMatchIndex + cfg.after_context)
    let base := if start ≤ st.lastMatchIndex + cfg.after_context then st.results.dropLast
      else st.results
    let backfill := (List.range' start (index - start)).map fun i =>
      Rec.line i (lines.getD i "") false
    { st with results := base ++ backfill }
  else st

/-- lib.rs 224-228: trailing-context bookkeeping (saturating decrement). -/
def afterPhase (cfg : Config) (isHit : Bool) (st : SearchState) : SearchState :=
  if isHit = true then { st with afterCnt := cfg.after_context }
  else { st with afterCnt := st.afterCnt - 1 }

/-- One iteration of the main loop of search (lib.rs 192-242) on the line
at `index`. -/
def searchStep (cfg : Config) (matcher : String → Bool) (lines : List String)
    (index : Nat) (st : SearchState) : SearchState :=
  let line := lines.getD index ""
  let isHit := cfg.invert_match ^^ matcher line
  if isHit = true ∨ 0 < st.afterCnt then
    if cfg.count_matches = true then { st with matchCount := st.matchCount + 1 }
    else
      let st1 := sepPhase cfg st
      let st2 := { st1 with needsSep := true }
      let st3 := beforePhase cfg lines index st2
      let st4 := afterPhase cfg isHit st3
      let st5 := pushRec st4 (Rec.line index line cfg.color)
      { st5 with lastMatchIndex := index }
  else st

/-- Runs `n` iterations of the main loop starting at line `index`. -/
def searchLoop (cfg : Config) (matcher : String → Bool) (lines : List String) :
    Nat → Nat → SearchState → SearchState
  | _, 0, st => st
  | index, n + 1, st =>
      searchLoop cfg matcher lines (index + 1) n (searchStep cfg matcher lines index st)

def initSearchState (needsSep : Bool) : SearchState :=
  { results := [], matchCount := 0, afterCnt := 0, lastMatchIndex := 0, needsSep := needsSep }

/-- lib.rs 179-249: search over one document (the document is the sequence
of lines of the file's contents, spec §3 "Document").  Returns the emitted
records together with the final value of the carried needs_separator
flag. -/
def search (lines : List String) (cfg : Config) (matcher : String → Bool)
    (needsSep : Bool) : List Rec × Bool :=
  let st := searchLoop cfg matcher lines 0 lines.length (initSearchState needsSep)
  (if cfg.count_matches = true then [Rec.count st.matchCount] else st.results, st.needsSep)

/-- Modelled from the spec (§4.1): the character set regex::escape of the
external regex crate treats as special in the pattern language (the crate
is an external collaborator; src/ only calls it).  The two brace
characters are written by code point. -/
def isMetaChar (c : Char) : Bool :=
  c = '\\' || c = '.' || c = '+' || c = '*' || c = '?' || c = '(' || c = ')' ||
  c = '|' || c = '[' || c = ']' || c = Char.ofNat 123 || c = Char.ofNat 125 ||
  c = '^' || c = '$' || c = '#' || c = '&' || c = '-' || c = '~'

/-- Modelled from the spec: regex::escape — every special character gets a
preceding backslash, all other characters pass through unchanged. -/
def escapeRegex : List Char → List Char
  | [] => []
  | c :: cs => if isMetaChar c then '\\' :: c :: escapeRegex cs else c :: escapeRegex cs

/-- lib.rs 131-146 (build_regex): the pattern string handed to Regex::new. -/
def build_regex_pattern (cfg : Config) : String :=
  let pattern := String.mk (escapeRegex cfg.query.data)
  let pattern := if cfg.word_regexp = true then "\\b" ++ pattern ++ "\\b" else pattern
  let pattern := if cfg.line_regexp = true then "^" ++ pattern ++ "$" else pattern
  if cfg.ignore_case = true then "(?i)" ++ pattern else pattern

/-- Modelled from the spec: the word characters of the external engine's
word-boundary assertion (alphanumeric or underscore). -/
def isWordChar (c : Char) : Bool := c.isAlphanum || c = '_'

/-- Character class at position `p` of the line; positions past the end
count as non-word. -/
def wordAt (s : List Char) (p : Nat) : Bool := isWordChar (s.getD p ' ')

/-- Character class immediately to the left of position `p`; the position
before the start of the line counts as non-word. -/
def leftWord (s : List Char) : Nat → Bool
  | 0 => false
  | p + 1 => wordAt s p

/-- Modelled from the spec: the engine's word boundary holds at `p` when
exactly one side of the position is a word character. -/
def boundaryAt (s : List Char) (p : Nat) : Bool := leftWord s p != wordAt s p

/-- The escaped literal `q` occurs at position `p` of `s`; with `word` set
both ends must additionally sit on word boundaries. -/
def matchesAt (q s : List Char) (p : Nat) (word : Bool) : Bool :=
  decide ((s.drop p).take q.length = q) &&
    (!word || (boundaryAt s p && boundaryAt s (p + q.length)))

def existsMatch (q s : List Char) (word : Bool) : Bool :=
  (List.range (s.length + 1)).any fun p => matchesAt q s p word

/-- Modelled from the spec (§4.1): Matcher.test, the semantics of the
compiled pattern on one line — the escaped literal matches itself, \b is a
word boundary, ^ and $ anchor the whole line, and (?i) makes the
comparison case-insensitive. -/
def matcherTest (cfg : Config) (line : String) : Bool :=
  let q := if cfg.ignore_case = true then cfg.query.data.map Char.toLower else cfg.query.data
  let s := if cfg.ignore_case = true then line.data.map Char.toLower else line.data
  if cfg.line_regexp = true then
    if cfg.word_regexp = true then
      decide (s = q) && boundaryAt s 0 && boundaryAt s s.length
    else decide (s = q)
  else existsMatch q s cfg.word_regexp

/-- A configuration with every flag off, no context, the default group
separator, and query "MATCH" (the base of the tests at lib.rs 282-298). -/
def baseCfg : Config :=
  { query := "MATCH", file_path := "", ignore_case := false, invert_match := false,
    word_regexp := false, line_regexp := false, count_matches := false, color := false,
    line_number := false, recursive := false, after_context := 0, before_context := 0,
    group_separator := "--" }

def c1cfg : Config := { baseCfg with before_context := 1 }

def c2cfg : Config := { baseCfg with before_context := 2, after_context := 2 }

def c3cfg : Config :=
  { baseCfg with count_matches := true, after_context := 5, before_context := 3 }

/-- Line `i` is a direct hit, or lies in the trailing after-context window
of some direct hit at or before it. -/
def inAfterWindow (cfg : Config) (m : String → Bool) (lines : List String) (i : Nat) : Bool :=
  (List.range (i + 1)).any fun j =>
    (cfg.invert_match ^^ m (lines.getD j "")) && decide (i ≤ j + cfg.after_context)

def c5cfg : Config := { baseCfg with invert_match := true, color := true, after_context := 1 }

def c5wcfg : Config := { baseCfg with color := true, before_context := 1 }

/-- lib.rs 32-46: the mutable locals of Config::build. -/
structure BuildState where
  ignore_case : Bool
  no_ignore_case : Bool
  invert_match : Bool
  word_regexp : Bool
  line_regexp : Bool
  count_matches : Bool
  line_number : Bool
  color : Bool
  recursive : Bool
  query : Option String
  file_path : Option String
  after_context : Nat
  before_context : Nat
  group_separator : String
  no_group_separator : Bool
deriving DecidableEq

def initBuildState : BuildState :=
  { ignore_case := false, no_ignore_case := false, invert_match := false, word_regexp := false,
    line_regexp := false, count_matches := false, line_number := false, color := false,
    recursive := false, query := none, file_path := none, after_context := 0,
    before_context := 0, group_separator := "--", no_group_separator := false }

def splitOnceEq : List Char → Option (List Char)
  | [] => none
  | '=' :: rest => some rest
  | _ :: rest => splitOnceEq rest

/-- lib.rs 48-50: parse_opt_val — the part of the argument after the first
'=' character, if any (str::split_once). -/
def parse_opt_val (arg : String) : Option String :=
  (splitOnceEq arg.data).map fun cs => String.mk cs

def digitsVal : List Char → Nat → Option Nat
  | [], acc => some acc
  | c :: rest, acc =>
      if c.isDigit then digitsVal rest (acc * 10 + (c.toNat - 48)) else none

/-- str::parse::<usize> of the standard library: an optional leading '+'
followed by one or more decimal digits (the usize overflow bound is not
modelled; no claim depends on it). -/
def parseUsize (s : String) : Option Nat :=
  match s.data with
  | [] => none
  | '+' :: [] => none
  | '+' :: c :: rest => digitsVal (c :: rest) 0
  | cs => digitsVal cs 0

/-- str::starts_with for a string prefix. -/
def strStartsWith (s pre : String) : Bool := pre.data.isPrefixOf s.data

/-- lib.rs 53-97: the argument loop of Config::build, processed in match
arm order.  The short context flags -A, -B and -C consume the next argument and
silently fall back to 0 when it does not parse (unwrap_or(0)); the long
forms return an error on an unparsable or missing value. -/
def buildLoop : List String → BuildState → Except String BuildState
  | [], st => .ok st
  | arg :: rest, st =>
    if arg = "-i" ∨ arg = "--ignore-case" then buildLoop rest { st with ignore_case := true }
    else if arg = "--no-ignore-case" then buildLoop rest { st with no_ignore_case := true }
    else if arg = "-v" ∨ arg = "--invert-match" then
      buildLoop rest { st with invert_match := true }
    else if arg = "-w" ∨ arg = "--word-regexp" then buildLoop rest { st with word_regexp := true }
    else if arg = "-x" ∨ arg = "--line-regexp" then buildLoop rest { st with line_regexp := true }
    else if arg = "-c" ∨ arg = "--count" then buildLoop rest { st with count_matches := true }
    else if arg = "--color" then buildLoop rest { st with color := true }
    else if arg = "-n" ∨ arg = "--line-number" then buildLoop rest { st with line_number := true }
    else if arg = "-r" ∨ arg = "--recursive" then buildLoop rest { st with recursive := true }
    else if arg = "-A" then
      match rest with
      | [] => .ok { st with after_context := 0 }
      | v :: rest' => buildLoop rest' { st with after_context := (parseUsize v).getD 0 }
    else if arg = "-B" then
      match rest with
      | [] => .ok { st with before_context := 0 }
      | v :: rest' => buildLoop rest' { st with before_context := (parseUsize v).getD 0 }
    else if arg = "-C" then
      match rest with
      | [] => .ok { st with before_context := 0, after_context := 0 }
      | v :: rest' =>
          let num := (parseUsize v).getD 0
          buildLoop rest' { st with before_context := num, after_context := num }
    else if strStartsWith arg "--after-context" = true then
      match (parse_opt_val arg).bind parseUsize with
      | none => .error "Invalid context length argument"
      | some n => buildLoop rest { st with after_context := n }
    else if strStartsWith arg "--before-context" = true then
      match (parse_opt_val arg).bind parseUsize with
      | none => .error "Invalid context length argument"
      | some n => buildLoop rest { st with before_context := n }
    else if strStartsWith arg "--context" = true then
      match (parse_opt_val arg).bind parseUsize with
      | none => .error "Invalid context length argument"
      | some n => buildLoop rest { st with before_context := n, after_context := n }
    else if strStartsWith arg "--group_separator" = true then
      buildLoop rest { st with group_separator := (parse_opt_val arg).getD "--" }
    else if arg = "--no_group_separator" then
      buildLoop rest { st with no_group_separator := true }
    else if st.query = none then buildLoop rest { st with query := some arg }
    else if st.file_path = none then buildLoop rest { st with file_path := some arg }
    else .error "Invalid option or too many arguments"

/-- lib.rs 99-127: the finalisation of Config::build — note line 99-101
resets invert_match (not ignore_case) when --no-ignore-case was seen. -/
def finalizeBuild (st : BuildState) : Except String Config :=
  let invert_match := if st.no_ignore_case = true then false else st.invert_match
  let group_separator := if st.no_group_separator = true then "" else st.group_separator
  match st.query with
  | none => .error "Didn't get a query string"
  | some q =>
    if st.recursive = true then
      .ok { query := q, file_path := st.file_path.getD ".", ignore_case := st.ignore_case,
            invert_match := invert_match, word_regexp := st.word_regexp,
            line_regexp := st.line_regexp, count_matches := st.count_matches,
            color := st.color, line_number := st.line_number, recursive := st.recursive,
            after_context := st.after_context, before_context := st.before_context,
            group_separator := group_separator }
    else
      match st.file_path with
      | none => .error "Didn't get a file path"
      | some p =>
          .ok { query := q, file_path := p, ignore_case := st.ignore_case,
                invert_match := invert_match, word_regexp := st.word_regexp,
                line_regexp := st.line_regexp, count_matches := st.count_matches,
                color := st.color, line_number := st.line_number, recursive := st.recursive,
                after_context := st.after_context, before_context := st.before_context,
                group_separator := group_separator }

def buildFrom (args : List String) (st : BuildState) : Except String Config :=
  (buildLoop args st).bind finalizeBuild

/-- lib.rs 29-128: Config::build — the first argument (the program name)
is discarded by the initial args.next(). -/
def Config.build (args : List String) : Except String Config :=
  buildFrom args.tail initBuildState

/-- Escape soundness scanner: every character of the list is either part
of a backslash escape or is not a regex metacharacter, and no backslash
dangles.  The Bool state records "previous char was an unmatched
backslash". -/
def escScan : Bool → List Char → Bool
  | false, [] => true
  | true, [] => false
  | false, c :: rest =>
      if c = '\\' then escScan true rest else (!(isMetaChar c) && escScan false rest)
  | true, _ :: rest => escScan false rest

/-- Every regex metacharacter in the list is escaped. -/
def allEscaped (cs : List Char) : Bool := escScan false cs

def c4cfg : Config := { baseCfg with query := "me", word_regexp := true }

/-- Modelled from the spec: characters the regex crate's parser rejects
when they appear unescaped (repetition operators with no operand, group
and class delimiters, alternation, and a bare trailing backslash). -/
def mustEscape (c : Char) : Bool :=
  c = '\\' || c = '*' || c = '+' || c = '?' || c = '(' || c = ')' ||
  c = '[' || c = ']' || c = Char.ofNat 123 || c = Char.ofNat 125 || c = '|'

/-- Modelled from the spec: characters that form a valid escape sequence
after a backslash — every escaped metacharacter, plus the word-boundary
escape b. -/
def escapableChar (c : Char) : Bool := isMetaChar c || c = 'b'

/-- Modelled from the spec: a conservative syntax checker for the patterns
the compiler constructs — the external engine accepts every pattern this
scanner accepts (sequences of escaped escapable characters, ordinary
literal characters, anchors, and literal inline "(?i)" groups).  States:
0 normal, 1 after a backslash, 2-4 inside an "(?i)" group. -/
def scanRe : Nat → List Char → Bool
  | 0, [] => true
  | 0, c :: rest =>
      if c = '\\' then scanRe 1 rest
      else if c = '(' then scanRe 2 rest
      else !(mustEscape c) && scanRe 0 rest
  | 1, c :: rest => escapableChar c && scanRe 0 rest
  | 2, c :: rest => decide (c = '?') && scanRe 3 rest
  | 3, c :: rest => decide (c = 'i') && scanRe 4 rest
  | 4, c :: rest => decide (c = ')') && scanRe 0 rest
  | _, _ => false

/-- The pattern string is in the accepted fragment. -/
def checkRegex (s : String) : Bool := scanRe 0 s.data

/-- Claim C1, evaluation at the failing input.  Document ["MATCH","MATCH"],
before_context = 1, after_context = 0, separators enabled, fresh carry:
the two direct hits are separated by a gap of 0 ≤ beforeContext +
afterContext, yet the line at index 0 appears twice in the output (the
backfill lower bound lastMatchIndex + afterContext re-emits the hit that
was already printed). -/
theorem C1_code_eval :
    (search ["MATCH", "MATCH"] c1cfg (matcherTest c1cfg) false).1 =
      [Rec.line 0 "MATCH" false, Rec.line 0 "MATCH" false, Rec.line 1 "MATCH" false] := by
  decide

/-- Claim C2, evaluation at the claimed input.  Document
["a","b","MATCH","c","d","e","MATCH","f"], afterContext = beforeContext =
2, fresh carry: the code returns MATCH,c,d,MATCH,f — the before-context
lines "b" (clipped at file start by the lower bound lastMatchIndex +
afterContext = 2) and "e" (clipped at the merge by the same bound, 4 + 2 =
6) are dropped, so the output is not the claimed contiguous run
b,MATCH,c,d,e,MATCH,f. -/
theorem C2_code_eval :
    (search ["a", "b", "MATCH", "c", "d", "e", "MATCH", "f"] c2cfg (matcherTest c2cfg) false).1 =
      [Rec.line 2 "MATCH" false, Rec.line 3 "c" false, Rec.line 4 "d" false,
       Rec.line 6 "MATCH" false, Rec.line 7 "f" false] := by
  decide

lemma searchStep_count (cfg : Config) (m : String → Bool) (lines : List String) (index : Nat)
    (st : SearchState) (hc : cfg.count_matches = true) (ha : st.afterCnt = 0) :
    searchStep cfg m lines index st =
      if (cfg.invert_match ^^ m (lines.getD index "")) = true
      then { st with matchCount := st.matchCount + 1 } else st := by
  unfold searchStep
  simp only [ha, lt_self_iff_false, or_false]
  by_cases h : (cfg.invert_match ^^ m (lines.getD index "")) = true
  · rw [if_pos h, if_pos hc, if_pos h]
  · rw [if_neg h, if_neg h]

lemma searchLoop_count_fields (cfg : Config) (m : String → Bool) (lines : List String)
    (hc : cfg.count_matches = true) :
    ∀ (n index : Nat) (st : SearchState), st.afterCnt = 0 →
      (searchLoop cfg m lines index n st).results = st.results ∧
      (searchLoop cfg m lines index n st).needsSep = st.needsSep ∧
      (searchLoop cfg m lines index n st).matchCount =
        st.matchCount + (List.range' index n).countP fun i => cfg.invert_match ^^ m (lines.getD i "") := by
  intro n
  induction n with
  | zero => intro index st ha; simp [searchLoop]
  | succ n ih =>
    intro index st ha
    rw [searchLoop, searchStep_count cfg m lines index st hc ha]
    by_cases h : (cfg.invert_match ^^ m (lines.getD index "")) = true
    · rw [if_pos h]
      obtain ⟨r1, r2, r3⟩ := ih (index + 1) { st with matchCount := st.matchCount + 1 } ha
      refine ⟨r1, r2, ?_⟩
      rw [r3]
      have h' : ¬ cfg.invert_match = m (lines[index]?.getD "") := by simpa using h
      have h2 : ((List.range' index (n + 1)).countP fun i => cfg.invert_match ^^ m (lines.getD i "")) =
          ((List.range' (index + 1) n).countP fun i => cfg.invert_match ^^ m (lines.getD i "")) + 1 := by
        rw [List.range'_succ, List.countP_cons]
        simp [h']
      rw [h2]
      show st.matchCount + 1 + _ = st.matchCount + _
      omega
    · rw [if_neg h]
      obtain ⟨r1, r2, r3⟩ := ih (index + 1) st ha
      refine ⟨r1, r2, ?_⟩
      rw [r3]
      have h' : cfg.invert_match = m (lines[index]?.getD "") := by simpa using h
      have h2 : ((List.range' index (n + 1)).countP fun i => cfg.invert_match ^^ m (lines.getD i "")) =
          (List.range' (index + 1) n).countP fun i => cfg.invert_match ^^ m (lines.getD i "") := by
        rw [List.range'_succ, List.countP_cons]
        simp [h']
      rw [h2]

lemma countP_range'_getD (L : List String) (p : String → Bool) :
    ∀ (n s : Nat), s + n ≤ L.length →
      ((List.range' s n).countP fun i => p (L.getD i "")) = ((L.drop s).take n).countP p := by
  intro n
  induction n with
  | zero => intro s h; simp
  | succ n ih =>
    intro s h
    have hs : s < L.length := by omega
    have hD : L.getD s "" = L[s] := by
      simp [List.getD_eq_getElem?_getD, List.getElem?_eq_getElem hs]
    rw [List.range'_succ, List.countP_cons, List.drop_eq_getElem_cons hs,
      List.take_succ_cons, List.countP_cons, hD, ih (s + 1) (by omega)]

/-- Claim C3: with countMatches set, search emits exactly one record — the
count of direct hits (lines whose matcher verdict XOR invertMatch is true)
— and no individual line record; the right-hand side mentions neither
after_context nor before_context, so the count is the same for every value
of the two context sizes. -/
theorem C3_count_mode (lines : List String) (cfg : Config) (m : String → Bool) (ns : Bool)
    (hc : cfg.count_matches = true) :
    search lines cfg m ns =
      ([Rec.count (lines.countP fun l => cfg.invert_match ^^ m l)], ns) := by
  obtain ⟨r1, r2, r3⟩ :=
    searchLoop_count_fields cfg m lines hc lines.length 0 (initSearchState ns) rfl
  have hbr := countP_range'_getD lines (fun l => cfg.invert_match ^^ m l) lines.length 0
    (by omega)
  simp only [List.drop_zero, List.take_length] at hbr
  simp only [search, hc, if_true]
  rw [r3, r2, hbr]
  simp [initSearchState]

theorem C3_count_mode_witness :
    c3cfg.count_matches = true ∧
      search ["MATCH", "x", "MATCH"] c3cfg (matcherTest c3cfg) false =
        ([Rec.count (["MATCH", "x", "MATCH"].countP fun l =>
          c3cfg.invert_match ^^ matcherTest c3cfg l)], false) :=
  ⟨rfl, C3_count_mode ["MATCH", "x", "MATCH"] c3cfg (matcherTest c3cfg) false rfl⟩

lemma searchStep_no_sep (cfg : Config) (m : String → Bool) (lines : List String) (index : Nat)
    (st : SearchState) (s : String) (hb : cfg.before_context = 0) (ha : cfg.after_context = 0)
    (h : Rec.sep s ∉ st.results) :
    Rec.sep s ∉ (searchStep cfg m lines index st).results := by
  unfold searchStep sepPhase beforePhase afterPhase pushRec
  simp only [hb, ha, lt_self_iff_false, or_self, false_and, and_false, if_false]
  split_ifs <;> simp_all

lemma searchLoop_no_sep (cfg : Config) (m : String → Bool) (lines : List String) (s : String)
    (hb : cfg.before_context = 0) (ha : cfg.after_context = 0) :
    ∀ (n index : Nat) (st : SearchState), Rec.sep s ∉ st.results →
      Rec.sep s ∉ (searchLoop cfg m lines index n st).results := by
  intro n
  induction n with
  | zero => intro index st h; simpa [searchLoop] using h
  | succ n ih =>
    intro index st h
    rw [searchLoop]
    exact ih (index + 1) _ (searchStep_no_sep cfg m lines index st s hb ha h)

/-- Claim C6: with beforeContext = afterContext = 0 the output of search
never contains a group-separator record, for every document, matcher and
initial carry state. -/
theorem C6_no_separator (lines : List String) (cfg : Config) (m : String → Bool) (ns : Bool)
    (s : String) (hb : cfg.before_context = 0) (ha : cfg.after_context = 0) :
    Rec.sep s ∉ (search lines cfg m ns).1 := by
  unfold search
  by_cases hc : cfg.count_matches = true
  · simp [hc]
  · simp only [hc, Bool.false_eq_true, if_false]
    exact searchLoop_no_sep cfg m lines s hb ha lines.length 0 (initSearchState ns)
      (by simp [initSearchState])

theorem C6_no_separator_witness :
    baseCfg.before_context = 0 ∧ baseCfg.after_context = 0 ∧
      Rec.sep "--" ∉ (search ["MATCH", "x", "MATCH"] baseCfg (matcherTest baseCfg) false).1 :=
  ⟨rfl, rfl, C6_no_separator ["MATCH", "x", "MATCH"] baseCfg (matcherTest baseCfg) false "--"
    rfl rfl⟩

lemma searchStep_needsSep_inv (cfg : Config) (m : String → Bool) (lines : List String)
    (index : Nat) (st : SearchState) (h : st.results ≠ [] → st.needsSep = true) :
    (searchStep cfg m lines index st).results ≠ [] →
      (searchStep cfg m lines index st).needsSep = true := by
  simp only [searchStep, sepPhase, beforePhase, afterPhase, pushRec]
  split_ifs <;> simp_all

lemma searchLoop_needsSep_inv (cfg : Config) (m : String → Bool) (lines : List String) :
    ∀ (n index : Nat) (st : SearchState), (st.results ≠ [] → st.needsSep = true) →
      (searchLoop cfg m lines index n st).results ≠ [] →
      (searchLoop cfg m lines index n st).needsSep = true := by
  intro n
  induction n with
  | zero => intro index st h; simpa [searchLoop] using h
  | succ n ih =>
    intro index st h
    rw [searchLoop]
    exact ih (index + 1) _ (searchStep_needsSep_inv cfg m lines index st h)

/-- Claim C9: whenever search executes the separator-retraction pop of the
before-context branch (lib.rs 217) — i.e. a new block starts on an
included line, before_context is positive and the backfill start does not
exceed lastMatchIndex + afterContext — the result list just before the pop
is either empty (the pop is a no-op) or ends with exactly the
group-separator record pushed earlier in the same iteration, so the pop
undoes that push and never removes a formatted content line. -/
theorem C9_pop_removes_separator (cfg : Config) (m : String → Bool) (lines : List String)
    (ns : Bool) (k : Nat) (st : SearchState)
    (hreach : st = searchLoop cfg m lines 0 k (initSearchState ns))
    (hnc : cfg.count_matches = false)
    (hincl : (cfg.invert_match ^^ m (lines.getD k "")) = true ∨ 0 < st.afterCnt)
    (hb : 0 < cfg.before_context) (hac : st.afterCnt = 0)
    (hpop : max (k - cfg.before_context) (st.lastMatchIndex + cfg.after_context) ≤
      st.lastMatchIndex + cfg.after_context) :
    (sepPhase cfg st).results = [] ∨
      ((sepPhase cfg st).results.getLast? = some (Rec.sep cfg.group_separator) ∧
        (sepPhase cfg st).results.dropLast = st.results) := by
  have hinv : st.results ≠ [] → st.needsSep = true := by
    subst hreach
    exact searchLoop_needsSep_inv cfg m lines k 0 (initSearchState ns)
      (by simp [initSearchState])
  by_cases hns : st.needsSep = true
  · right
    have hcond : st.needsSep = true ∧ st.afterCnt = 0 ∧
        (0 < cfg.after_context ∨ 0 < cfg.before_context) := ⟨hns, hac, Or.inr hb⟩
    simp only [sepPhase, if_pos hcond, pushRec]
    exact ⟨List.getLast?_concat _, List.dropLast_concat⟩
  · have hres : st.results = [] := by
      by_contra hne
      exact hns (hinv hne)
    left
    simp only [sepPhase]
    rw [if_neg fun hcond => hns hcond.1]
    exact hres

theorem C9_pop_removes_separator_witness :
    c1cfg.count_matches = false ∧ 0 < c1cfg.before_context ∧
      ((sepPhase c1cfg (searchLoop c1cfg (matcherTest c1cfg) ["MATCH", "MATCH"] 0 1
          (initSearchState false))).results = [] ∨
        ((sepPhase c1cfg (searchLoop c1cfg (matcherTest c1cfg) ["MATCH", "MATCH"] 0 1
            (initSearchState false))).results.getLast? = some (Rec.sep c1cfg.group_separator) ∧
          (sepPhase c1cfg (searchLoop c1cfg (matcherTest c1cfg) ["MATCH", "MATCH"] 0 1
            (initSearchState false))).results.dropLast =
            (searchLoop c1cfg (matcherTest c1cfg) ["MATCH", "MATCH"] 0 1
              (initSearchState false)).results)) :=
  ⟨rfl, by decide,
    C9_pop_removes_separator c1cfg (matcherTest c1cfg) ["MATCH", "MATCH"] false 1 _ rfl rfl
      (by decide) (by decide) (by decide) (by decide)⟩

lemma inAfterWindow_intro (cfg : Config) (m : String → Bool) (lines : List String)
    (i j : Nat) (hj : j ≤ i) (hdh : (cfg.invert_match ^^ m (lines.getD j "")) = true)
    (hle : i ≤ j + cfg.after_context) : inAfterWindow cfg m lines i = true := by
  simp only [inAfterWindow, List.any_eq_true, List.mem_range]
  exact ⟨j, by omega, by rw [Bool.and_eq_true]; exact ⟨hdh, decide_eq_true hle⟩⟩

lemma sepPhase_afterCnt (cfg : Config) (st : SearchState) :
    (sepPhase cfg st).afterCnt = st.afterCnt := by
  simp only [sepPhase, pushRec]
  split_ifs <;> rfl

lemma sepPhase_lastMatchIndex (cfg : Config) (st : SearchState) :
    (sepPhase cfg st).lastMatchIndex = st.lastMatchIndex := by
  simp only [sepPhase, pushRec]
  split_ifs <;> rfl

lemma beforePhase_afterCnt (cfg : Config) (lines : List String) (index : Nat)
    (st : SearchState) : (beforePhase cfg lines index st).afterCnt = st.afterCnt := by
  simp only [beforePhase]
  split_ifs <;> rfl

lemma afterPhase_results (cfg : Config) (b : Bool) (st : SearchState) :
    (afterPhase cfg b st).results = st.results := by
  simp only [afterPhase]
  split_ifs <;> rfl

lemma sepPhase_line_mem (cfg : Config) (st : SearchState) (i : Nat) (c : String) (b : Bool)
    (h : Rec.line i c b ∈ (sepPhase cfg st).results) : Rec.line i c b ∈ st.results := by
  simp only [sepPhase, pushRec] at h
  split_ifs at h with hcond
  · rcases List.mem_append.1 h with hm | hm
    · exact hm
    · simp at hm
  · exact h

lemma beforePhase_line_mem (cfg : Config) (lines : List String) (index : Nat)
    (st : SearchState) (i : Nat) (c : String)
    (h : Rec.line i c true ∈ (beforePhase cfg lines index st).results) :
    Rec.line i c true ∈ st.results := by
  simp only [beforePhase] at h
  split_ifs at h with hcond hpop
  · rcases List.mem_append.1 h with hm | hm
    · exact List.dropLast_subset _ hm
    · rcases List.mem_map.1 hm with ⟨j, _, hj⟩
      cases hj
  · rcases List.mem_append.1 h with hm | hm
    · exact hm
    · rcases List.mem_map.1 hm with ⟨j, _, hj⟩
      cases hj
  · exact h

lemma searchStep_highlight_inv (cfg : Config) (m : String → Bool) (lines : List String)
    (index : Nat) (st : SearchState) (hnc : cfg.count_matches = false)
    (h1 : ∀ i c, Rec.line i c true ∈ st.results →
      cfg.color = true ∧ inAfterWindow cfg m lines i = true)
    (h2 : 0 < st.afterCnt → ∃ j, j < index ∧ (cfg.invert_match ^^ m (lines.getD j "")) = true ∧
      st.afterCnt + index ≤ cfg.after_context + 1 + j) :
    (∀ i c, Rec.line i c true ∈ (searchStep cfg m lines index st).results →
      cfg.color = true ∧ inAfterWindow cfg m lines i = true) ∧
    (0 < (searchStep cfg m lines index st).afterCnt →
      ∃ j, j < index + 1 ∧ (cfg.invert_match ^^ m (lines.getD j "")) = true ∧
        (searchStep cfg m lines index st).afterCnt + (index + 1) ≤ cfg.after_context + 1 + j) := by
  by_cases hin : (cfg.invert_match ^^ m (lines.getD index "")) = true ∨ 0 < st.afterCnt
  case neg =>
    have hstep : searchStep cfg m lines index st = st := by
      simp only [searchStep]
      rw [if_neg hin]
    rw [hstep]
    refine ⟨h1, fun hpos => absurd (Or.inr hpos) hin⟩
  case pos =>
    have hstep : searchStep cfg m lines index st =
        { pushRec (afterPhase cfg (cfg.invert_match ^^ m (lines.getD index ""))
            (beforePhase cfg lines index { sepPhase cfg st with needsSep := true }))
            (Rec.line index (lines.getD index "") cfg.color) with lastMatchIndex := index } := by
      simp only [searchStep]
      rw [if_pos hin, if_neg (by simp [hnc])]
    have hres : (searchStep cfg m lines index st).results =
        (beforePhase cfg lines index { sepPhase cfg st with needsSep := true }).results ++
          [Rec.line index (lines.getD index "") cfg.color] := by
      rw [hstep]
      simp only [pushRec]
      rw [afterPhase_results]
    have hacEq : (searchStep cfg m lines index st).afterCnt =
        (afterPhase cfg (cfg.invert_match ^^ m (lines.getD index ""))
          (beforePhase cfg lines index { sepPhase cfg st with needsSep := true })).afterCnt := by
      rw [hstep]
      rfl
    have hbc : (beforePhase cfg lines index
        { sepPhase cfg st with needsSep := true }).afterCnt = st.afterCnt := by
      rw [beforePhase_afterCnt]
      exact sepPhase_afterCnt cfg st
    constructor
    · intro i c hmem
      rw [hres] at hmem
      rcases List.mem_append.1 hmem with hm | hm
      · have hm2 := beforePhase_line_mem cfg lines index _ i c hm
        exact h1 i c (sepPhase_line_mem cfg st i c true hm2)
      · simp only [List.mem_singleton] at hm
        injection hm with hieq hceq hcoleq
        subst hieq
        refine ⟨hcoleq.symm, ?_⟩
        rcases hin with hhit | hcnt
        · exact inAfterWindow_intro cfg m lines i i le_rfl hhit (by omega)
        · obtain ⟨j, hj, hdh, hsum⟩ := h2 hcnt
          exact inAfterWindow_intro cfg m lines i j (by omega) hdh (by omega)
    · intro hpos
      rw [hacEq] at hpos ⊢
      by_cases hhit : (cfg.invert_match ^^ m (lines.getD index "")) = true
      · have hval : (afterPhase cfg (cfg.invert_match ^^ m (lines.getD index ""))
            (beforePhase cfg lines index { sepPhase cfg st with needsSep := true })).afterCnt =
              cfg.after_context := by
          simp only [afterPhase]
          rw [if_pos hhit]
        rw [hval]
        exact ⟨index, by omega, hhit, by omega⟩
      · have hcnt0 : 0 < st.afterCnt := by
          rcases hin with h | h
          · exact absurd h hhit
          · exact h
        have hval : (afterPhase cfg (cfg.invert_match ^^ m (lines.getD index ""))
            (beforePhase cfg lines index { sepPhase cfg st with needsSep := true })).afterCnt =
              st.afterCnt - 1 := by
          simp only [afterPhase]
          rw [if_neg hhit]
          show (beforePhase cfg lines index { sepPhase cfg st with needsSep := true }).afterCnt - 1
            = st.afterCnt - 1
          rw [hbc]
        rw [hval] at hpos ⊢
        obtain ⟨j, hj, hdh, hsum⟩ := h2 hcnt0
        exact ⟨j, by omega, hdh, by omega⟩

lemma searchLoop_highlight_inv (cfg : Config) (m : String → Bool) (lines : List String)
    (hnc : cfg.count_matches = false) :
    ∀ (n index : Nat) (st : SearchState),
      (∀ i c, Rec.line i c true ∈ st.results →
        cfg.color = true ∧ inAfterWindow cfg m lines i = true) →
      (0 < st.afterCnt → ∃ j, j < index ∧ (cfg.invert_match ^^ m (lines.getD j "")) = true ∧
        st.afterCnt + index ≤ cfg.after_context + 1 + j) →
      ∀ i c, Rec.line i c true ∈ (searchLoop cfg m lines index n st).results →
        cfg.color = true ∧ inAfterWindow cfg m lines i = true := by
  intro n
  induction n with
  | zero => intro index st ha1 _ i c h; exact ha1 i c (by simpa [searchLoop] using h)
  | succ n ih =>
    intro index st ha1 ha2
    rw [searchLoop]
    obtain ⟨hb1, hb2⟩ := searchStep_highlight_inv cfg m lines index st hnc ha1 ha2
    exact ih (index + 1) _ hb1 hb2

/-- Claim C5, amended: a line record carrying the highlight pass is only
ever the current line of an iteration — a direct hit or a line inside the
trailing after-context window of an earlier direct hit — and only when
color is on; lines emitted purely as before-context backfill are never
highlighted.  (With invertMatch false this coincides with the original
claim; the original claim fails for invertMatch true, see the
counterexample.) -/
theorem C5_highlight_window (lines : List String) (cfg : Config) (m : String → Bool) (ns : Bool)
    (i : Nat) (c : String)
    (hmem : Rec.line i c true ∈ (search lines cfg m ns).1) :
    cfg.color = true ∧ inAfterWindow cfg m lines i = true := by
  by_cases hnc : cfg.count_matches = true
  · rw [search] at hmem
    simp only [hnc, if_true] at hmem
    simp at hmem
  · have hnc' : cfg.count_matches = false := by
      revert hnc
      cases cfg.count_matches <;> simp
    have hloop := searchLoop_highlight_inv cfg m lines hnc' lines.length 0 (initSearchState ns)
      (by intro i c h; simp [initSearchState] at h)
      (by intro h; simp [initSearchState] at h)
    apply hloop i c
    rw [search] at hmem
    simpa only [hnc', Bool.false_eq_true, if_false] using hmem

/-- Claim C5, counterexample: with invertMatch and color on and
afterContext = 1 on document ["x","MATCH"], the line "MATCH" is included
purely as trailing after-context (its direct-hit verdict is false), yet
its record carries the highlight pass and the line has match spans — so a
pure context line is emitted with highlighted spans, contradicting the
claim for invertMatch = true. -/
theorem C5_counterexample :
    Rec.line 1 "MATCH" true ∈ (search ["x", "MATCH"] c5cfg (matcherTest c5cfg) false).1 ∧
      matcherTest c5cfg "MATCH" = true ∧
      (c5cfg.invert_match ^^ matcherTest c5cfg "MATCH") = false := by
  decide

theorem C5_highlight_window_witness :
    (Rec.line 1 "MATCH" true ∈ (search ["a", "MATCH"] c5wcfg (matcherTest c5wcfg) false).1) ∧
      (c5wcfg.color = true ∧ inAfterWindow c5wcfg (matcherTest c5wcfg) ["a", "MATCH"] 1 = true) :=
  ⟨by decide,
    C5_highlight_window ["a", "MATCH"] c5wcfg (matcherTest c5wcfg) false 1 "MATCH" (by decide)⟩

/-- Claim C7, counterexample: the short spelling -A with the unparsable
value "xyz" does not produce an error — Config::build succeeds and
silently uses after_context = 0 (unwrap_or(0) at lib.rs 64). -/
theorem C7_counterexample :
    (Config.build ["rgrep", "-A", "xyz", "q", "p"]).toOption.map
        (fun c => (c.after_context, c.query, c.file_path)) = some (0, "q", "p") := by
  decide

/-- Claim C7, amended: only the long option spellings --after-context=,
--before-context= and --context= with a value that does not parse as a
non-negative integer make Config::build return a ConfigError; the short
spellings -A, -B, -C silently fall back to 0.  Whenever the argument loop,
in any state, reaches such a long option, it returns the error (and so
does Config::build when the option follows the program name). -/
theorem C7_long_context_error (arg : String) (rest : List String) (st : BuildState) :
    (strStartsWith arg "--after-context" = true →
      (parse_opt_val arg).bind parseUsize = none →
      buildLoop (arg :: rest) st = Except.error "Invalid context length argument") ∧
    (strStartsWith arg "--after-context" = false →
      strStartsWith arg "--before-context" = true →
      (parse_opt_val arg).bind parseUsize = none →
      buildLoop (arg :: rest) st = Except.error "Invalid context length argument") ∧
    (strStartsWith arg "--after-context" = false →
      strStartsWith arg "--before-context" = false →
      strStartsWith arg "--context" = true →
      (parse_opt_val arg).bind parseUsize = none →
      buildLoop (arg :: rest) st = Except.error "Invalid context length argument") ∧
    (strStartsWith arg "--after-context" = true →
      (parse_opt_val arg).bind parseUsize = none → ∀ prog : String,
      Config.build (prog :: arg :: rest) = Except.error "Invalid context length argument") := by
  have key : ∀ st' : BuildState, strStartsWith arg "--after-context" = true →
      (parse_opt_val arg).bind parseUsize = none →
      buildLoop (arg :: rest) st' = Except.error "Invalid context length argument" := by
    intro st' h hp
    rw [buildLoop.eq_def]
    dsimp only
    rw [
      if_neg (by rintro (rfl | rfl) <;> exact absurd h (by decide)),
      if_neg (by rintro rfl; exact absurd h (by decide)),
      if_neg (by rintro (rfl | rfl) <;> exact absurd h (by decide)),
      if_neg (by rintro (rfl | rfl) <;> exact absurd h (by decide)),
      if_neg (by rintro (rfl | rfl) <;> exact absurd h (by decide)),
      if_neg (by rintro (rfl | rfl) <;> exact absurd h (by decide)),
      if_neg (by rintro rfl; exact absurd h (by decide)),
      if_neg (by rintro (rfl | rfl) <;> exact absurd h (by decide)),
      if_neg (by rintro (rfl | rfl) <;> exact absurd h (by decide)),
      if_neg (by rintro rfl; exact absurd h (by decide)),
      if_neg (by rintro rfl; exact absurd h (by decide)),
      if_neg (by rintro rfl; exact absurd h (by decide)),
      if_pos h, hp]
  refine ⟨fun h hp => key st h hp, ?_, ?_, ?_⟩
  · intro h1 h2 hp
    rw [buildLoop.eq_def]
    dsimp only
    rw [
      if_neg (by rintro (rfl | rfl) <;> exact absurd h2 (by decide)),
      if_neg (by rintro rfl; exact absurd h2 (by decide)),
      if_neg (by rintro (rfl | rfl) <;> exact absurd h2 (by decide)),
      if_neg (by rintro (rfl | rfl) <;> exact absurd h2 (by decide)),
      if_neg (by rintro (rfl | rfl) <;> exact absurd h2 (by decide)),
      if_neg (by rintro (rfl | rfl) <;> exact absurd h2 (by decide)),
      if_neg (by rintro rfl; exact absurd h2 (by decide)),
      if_neg (by rintro (rfl | rfl) <;> exact absurd h2 (by decide)),
      if_neg (by rintro (rfl | rfl) <;> exact absurd h2 (by decide)),
      if_neg (by rintro rfl; exact absurd h2 (by decide)),
      if_neg (by rintro rfl; exact absurd h2 (by decide)),
      if_neg (by rintro rfl; exact absurd h2 (by decide)),
      if_neg (by simp [h1]),
      if_pos h2, hp]
  · intro h1 h2 h3 hp
    rw [buildLoop.eq_def]
    dsimp only
    rw [
      if_neg (by rintro (rfl | rfl) <;> exact absurd h3 (by decide)),
      if_neg (by rintro rfl; exact absurd h3 (by decide)),
      if_neg (by rintro (rfl | rfl) <;> exact absurd h3 (by decide)),
      if_neg (by rintro (rfl | rfl) <;> exact absurd h3 (by decide)),
      if_neg (by rintro (rfl | rfl) <;> exact absurd h3 (by decide)),
      if_neg (by rintro (rfl | rfl) <;> exact absurd h3 (by decide)),
      if_neg (by rintro rfl; exact absurd h3 (by decide)),
      if_neg (by rintro (rfl | rfl) <;> exact absurd h3 (by decide)),
      if_neg (by rintro (rfl | rfl) <;> exact absurd h3 (by decide)),
      if_neg (by rintro rfl; exact absurd h3 (by decide)),
      if_neg (by rintro rfl; exact absurd h3 (by decide)),
      if_neg (by rintro rfl; exact absurd h3 (by decide)),
      if_neg (by simp [h1]),
      if_neg (by simp [h2]),
      if_pos h3, hp]
  · intro h hp prog
    show buildFrom (arg :: rest) initBuildState = Except.error "Invalid context length argument"
    unfold buildFrom
    rw [key initBuildState h hp]
    rfl

theorem C7_long_context_error_witness :
    (strStartsWith "--after-context=xy" "--after-context" = true ∧
        (parse_opt_val "--after-context=xy").bind parseUsize = none) ∧
      Config.build ["rgrep", "--after-context=xy", "q", "p"] =
        Except.error "Invalid context length argument" :=
  ⟨⟨by decide, by decide⟩,
    (C7_long_context_error "--after-context=xy" ["q", "p"] initBuildState).2.2.2
      (by decide) (by decide) "rgrep"⟩

/-- Claim C10, counterexample: in this argument list the flag
"--no-ignore-case" is present, but it is consumed as the numeric value of
the preceding -A (lib.rs 64), so Config::build succeeds with invert_match
still true (and ignore_case false). -/
theorem C10_counterexample :
    "--no-ignore-case" ∈ ["rgrep", "-v", "-A", "--no-ignore-case", "q", "p"] ∧
      (Config.build ["rgrep", "-v", "-A", "--no-ignore-case", "q", "p"]).toOption.map
        (fun c => (c.invert_match, c.ignore_case)) = some (true, false) := by
  decide

lemma buildLoop_setNo :
    ∀ (fuel : Nat) (rest : List String) (st : BuildState), rest.length ≤ fuel →
      buildLoop rest { st with no_ignore_case := true } =
        Except.map (fun r => { r with no_ignore_case := true }) (buildLoop rest st) := by
  intro fuel
  induction fuel with
  | zero =>
    intro rest st hlen
    have hnil : rest = [] := List.length_eq_zero.mp (by omega)
    subst hnil
    rw [buildLoop.eq_1, buildLoop.eq_1]
    rfl
  | succ n ih =>
    intro rest st hlen
    cases rest with
    | nil =>
      rw [buildLoop.eq_1, buildLoop.eq_1]
      rfl
    | cons arg rest =>
      cases rest with
      | nil =>
        conv_lhs => rw [buildLoop.eq_2]
        conv_rhs => rw [buildLoop.eq_2]
        by_cases h1 : arg = "-i" ∨ arg = "--ignore-case"
        · rw [if_pos h1, if_pos h1]
          exact ih [] { st with ignore_case := true } (Nat.zero_le n)
        · rw [if_neg h1, if_neg h1]
          by_cases h2 : arg = "--no-ignore-case"
          · rw [if_pos h2, if_pos h2]
            exact ih [] { st with no_ignore_case := true } (Nat.zero_le n)
          · rw [if_neg h2, if_neg h2]
            by_cases h3 : arg = "-v" ∨ arg = "--invert-match"
            · rw [if_pos h3, if_pos h3]
              exact ih [] { st with invert_match := true } (Nat.zero_le n)
            · rw [if_neg h3, if_neg h3]
              by_cases h4 : arg = "-w" ∨ arg = "--word-regexp"
              · rw [if_pos h4, if_pos h4]
                exact ih [] { st with word_regexp := true } (Nat.zero_le n)
              · rw [if_neg h4, if_neg h4]
                by_cases h5 : arg = "-x" ∨ arg = "--line-regexp"
                · rw [if_pos h5, if_pos h5]
                  exact ih [] { st with line_regexp := true } (Nat.zero_le n)
                · rw [if_neg h5, if_neg h5]
                  by_cases h6 : arg = "-c" ∨ arg = "--count"
                  · rw [if_pos h6, if_pos h6]
                    exact ih [] { st with count_matches := true } (Nat.zero_le n)
                  · rw [if_neg h6, if_neg h6]
                    by_cases h7 : arg = "--color"
                    · rw [if_pos h7, if_pos h7]
                      exact ih [] { st with color := true } (Nat.zero_le n)
                    · rw [if_neg h7, if_neg h7]
                      by_cases h8 : arg = "-n" ∨ arg = "--line-number"
                      · rw [if_pos h8, if_pos h8]
                        exact ih [] { st with line_number := true } (Nat.zero_le n)
                      · rw [if_neg h8, if_neg h8]
                        by_cases h9 : arg = "-r" ∨ arg = "--recursive"
                        · rw [if_pos h9, if_pos h9]
                          exact ih [] { st with recursive := true } (Nat.zero_le n)
                        · rw [if_neg h9, if_neg h9]
                          by_cases h10 : arg = "-A"
                          · rw [if_pos h10, if_pos h10]
                            rfl
                          · rw [if_neg h10, if_neg h10]
                            by_cases h11 : arg = "-B"
                            · rw [if_pos h11, if_pos h11]
                              rfl
                            · rw [if_neg h11, if_neg h11]
                              by_cases h12 : arg = "-C"
                              · rw [if_pos h12, if_pos h12]
                                rfl
                              · rw [if_neg h12, if_neg h12]
                                by_cases h13 : strStartsWith arg "--after-context" = true
                                · rw [if_pos h13, if_pos h13]
                                  cases hx : (parse_opt_val arg).bind parseUsize with
                                  | none => rfl
                                  | some k => exact ih [] { st with after_context := k } (Nat.zero_le n)
                                · rw [if_neg h13, if_neg h13]
                                  by_cases h14 : strStartsWith arg "--before-context" = true
                                  · rw [if_pos h14, if_pos h14]
                                    cases hx : (parse_opt_val arg).bind parseUsize with
                                    | none => rfl
                                    | some k => exact ih [] { st with before_context := k } (Nat.zero_le n)
                                  · rw [if_neg h14, if_neg h14]
                                    by_cases h15 : strStartsWith arg "--context" = true
                                    · rw [if_pos h15, if_pos h15]
                                      cases hx : (parse_opt_val arg).bind parseUsize with
                                      | none => rfl
                                      | some k => exact ih [] { st with before_context := k, after_context := k } (Nat.zero_le n)
                                    · rw [if_neg h15, if_neg h15]
                                      by_cases h16 : strStartsWith arg "--group_separator" = true
                                      · rw [if_pos h16, if_pos h16]
                                        exact ih [] { st with group_separator := (parse_opt_val arg).getD "--" } (Nat.zero_le n)
                                      · rw [if_neg h16, if_neg h16]
                                        by_cases h17 : arg = "--no_group_separator"
                                        · rw [if_pos h17, if_pos h17]
                                          exact ih [] { st with no_group_separator := true } (Nat.zero_le n)
                                        · rw [if_neg h17, if_neg h17]
                                          by_cases h18 : st.query = none
                                          · rw [if_pos h18, if_pos h18]
                                            exact ih [] { st with query := some arg } (Nat.zero_le n)
                                          · rw [if_neg h18, if_neg h18]
                                            by_cases h19 : st.file_path = none
                                            · rw [if_pos h19, if_pos h19]
                                              exact ih [] { st with file_path := some arg } (Nat.zero_le n)
                                            · rw [if_neg h19, if_neg h19]
                                              rfl
      | cons v r =>
        have hr2 : (v :: r).length ≤ n := by
          simp only [List.length_cons] at hlen ⊢
          omega
        have hr3 : r.length ≤ n := by
          simp only [List.length_cons] at hr2
          omega
        conv_lhs => rw [buildLoop.eq_3]
        conv_rhs => rw [buildLoop.eq_3]
        by_cases h1 : arg = "-i" ∨ arg = "--ignore-case"
        · rw [if_pos h1, if_pos h1]
          exact ih (v :: r) { st with ignore_case := true } hr2
        · rw [if_neg h1, if_neg h1]
          by_cases h2 : arg = "--no-ignore-case"
          · rw [if_pos h2, if_pos h2]
            exact ih (v :: r) { st with no_ignore_case := true } hr2
          · rw [if_neg h2, if_neg h2]
            by_cases h3 : arg = "-v" ∨ arg = "--invert-match"
            · rw [if_pos h3, if_pos h3]
              exact ih (v :: r) { st with invert_match := true } hr2
            · rw [if_neg h3, if_neg h3]
              by_cases h4 : arg = "-w" ∨ arg = "--word-regexp"
              · rw [if_pos h4, if_pos h4]
                exact ih (v :: r) { st with word_regexp := true } hr2
              · rw [if_neg h4, if_neg h4]
                by_cases h5 : arg = "-x" ∨ arg = "--line-regexp"
                · rw [if_pos h5, if_pos h5]
                  exact ih (v :: r) { st with line_regexp := true } hr2
                · rw [if_neg h5, if_neg h5]
                  by_cases h6 : arg = "-c" ∨ arg = "--count"
                  · rw [if_pos h6, if_pos h6]
                    exact ih (v :: r) { st with count_matches := true } hr2
                  · rw [if_neg h6, if_neg h6]
                    by_cases h7 : arg = "--color"
                    · rw [if_pos h7, if_pos h7]
                      exact ih (v :: r) { st with color := true } hr2
                    · rw [if_neg h7, if_neg h7]
                      by_cases h8 : arg = "-n" ∨ arg = "--line-number"
                      · rw [if_pos h8, if_pos h8]
                        exact ih (v :: r) { st with line_number := true } hr2
                      · rw [if_neg h8, if_neg h8]
                        by_cases h9 : arg = "-r" ∨ arg = "--recursive"
                        · rw [if_pos h9, if_pos h9]
                          exact ih (v :: r) { st with recursive := true } hr2
                        · rw [if_neg h9, if_neg h9]
                          by_cases h10 : arg = "-A"
                          · rw [if_pos h10, if_pos h10]
                            exact ih r { st with after_context := (parseUsize v).getD 0 } hr3
                          · rw [if_neg h10, if_neg h10]
                            by_cases h11 : arg = "-B"
                            · rw [if_pos h11, if_pos h11]
                              exact ih r { st with before_context := (parseUsize v).getD 0 } hr3
                            · rw [if_neg h11, if_neg h11]
                              by_cases h12 : arg = "-C"
                              · rw [if_pos h12, if_pos h12]
                                exact ih r { st with before_context := (parseUsize v).getD 0, after_context := (parseUsize v).getD 0 } hr3
                              · rw [if_neg h12, if_neg h12]
                                by_cases h13 : strStartsWith arg "--after-context" = true
                                · rw [if_pos h13, if_pos h13]
                                  cases hx : (parse_opt_val arg).bind parseUsize with
                                  | none => rfl
                                  | some k => exact ih (v :: r) { st with after_context := k } hr2
                                · rw [if_neg h13, if_neg h13]
                                  by_cases h14 : strStartsWith arg "--before-context" = true
                                  · rw [if_pos h14, if_pos h14]
                                    cases hx : (parse_opt_val arg).bind parseUsize with
                                    | none => rfl
                                    | some k => exact ih (v :: r) { st with before_context := k } hr2
                                  · rw [if_neg h14, if_neg h14]
                                    by_cases h15 : strStartsWith arg "--context" = true
                                    · rw [if_pos h15, if_pos h15]
                                      cases hx : (parse_opt_val arg).bind parseUsize with
                                      | none => rfl
                                      | some k => exact ih (v :: r) { st with before_context := k, after_context := k } hr2
                                    · rw [if_neg h15, if_neg h15]
                                      by_cases h16 : strStartsWith arg "--group_separator" = true
                                      · rw [if_pos h16, if_pos h16]
                                        exact ih (v :: r) { st with group_separator := (parse_opt_val arg).getD "--" } hr2
                                      · rw [if_neg h16, if_neg h16]
                                        by_cases h17 : arg = "--no_group_separator"
                                        · rw [if_pos h17, if_pos h17]
                                          exact ih (v :: r) { st with no_group_separator := true } hr2
                                        · rw [if_neg h17, if_neg h17]
                                          by_cases h18 : st.query = none
                                          · rw [if_pos h18, if_pos h18]
                                            exact ih (v :: r) { st with query := some arg } hr2
                                          · rw [if_neg h18, if_neg h18]
                                            by_cases h19 : st.file_path = none
                                            · rw [if_pos h19, if_pos h19]
                                              exact ih (v :: r) { st with file_path := some arg } hr2
                                            · rw [if_neg h19, if_neg h19]
                                              rfl

lemma finalizeBuild_setNo (st : BuildState) :
    finalizeBuild { st with no_ignore_case := true } =
      Except.map (fun c => { c with invert_match := false }) (finalizeBuild st) := by
  unfold finalizeBuild
  dsimp only
  cases hq : st.query with
  | none => rfl
  | some q =>
    dsimp only
    by_cases hrec : st.recursive = true
    · rw [if_pos hrec, if_pos hrec]
      rfl
    · rw [if_neg hrec, if_neg hrec]
      cases st.file_path with
      | none => rfl
      | some p => rfl

/-- Claim C10, amended: whenever the argument loop, in any state, reaches
"--no-ignore-case" as an option (rather than having it consumed as the
numeric value of an immediately preceding -A, -B or -C), the built
configuration is exactly the one built from the remaining arguments with
invert_match forced to false — in particular ignore_case and every other
field are whatever the other flags set (lib.rs 99-101 resets invert_match,
not ignore_case). -/
theorem C10_no_ignore_case_effect (rest : List String) (st : BuildState) :
    buildFrom ("--no-ignore-case" :: rest) st =
      Except.map (fun c => { c with invert_match := false }) (buildFrom rest st) := by
  have h1 : buildLoop ("--no-ignore-case" :: rest) st =
      buildLoop rest { st with no_ignore_case := true } := by
    cases rest with
    | nil =>
      rw [buildLoop.eq_2]
      rw [if_neg (by decide), if_pos rfl]
    | cons v r =>
      rw [buildLoop.eq_3]
      rw [if_neg (by decide), if_pos rfl]
  unfold buildFrom
  rw [h1, buildLoop_setNo rest.length rest st le_rfl]
  cases buildLoop rest st with
  | error e => rfl
  | ok st' => exact finalizeBuild_setNo st'

lemma allEscaped_escapeRegex : ∀ cs : List Char, allEscaped (escapeRegex cs) = true := by
  intro cs
  induction cs with
  | nil => rfl
  | cons c cs ih =>
    by_cases hm : isMetaChar c = true
    · simpa [escapeRegex, hm, allEscaped, escScan] using ih
    · have hb : c ≠ '\\' := by rintro rfl; exact hm (by decide)
      simp only [escapeRegex, hm, Bool.false_eq_true, if_false]
      simpa [allEscaped, escScan, hb, hm] using ih

/-- Claim C4: the compiled pattern is the escaped literal (every regex
metacharacter escaped — first conjunct), wrapped in word-boundary anchors
when wholeWord is set and anchored to the whole line, outside the word
wrap, when wholeLine is set (second conjunct, stated as the exact shape of
the pattern string's characters); consequently, in the spec-modelled
matcher semantics, query "me" with wholeWord does not match "method" but
does match "me." (third conjunct). -/
theorem C4_pattern_literal :
    (∀ cs : List Char, allEscaped (escapeRegex cs) = true) ∧
    (∀ cfg : Config, (build_regex_pattern cfg).data =
      (if cfg.ignore_case = true then ['(', '?', 'i', ')'] else []) ++
        ((if cfg.line_regexp = true then ['^'] else []) ++
          ((if cfg.word_regexp = true then ['\\', 'b'] else []) ++
            (escapeRegex cfg.query.data ++
              ((if cfg.word_regexp = true then ['\\', 'b'] else []) ++
                (if cfg.line_regexp = true then ['$'] else [])))))) ∧
    matcherTest c4cfg "method" = false ∧ matcherTest c4cfg "me." = true := by
  refine ⟨allEscaped_escapeRegex, ?_, by decide, by decide⟩
  intro cfg
  rcases cfg with ⟨q, fp, ic, iv, w, l, cm, co, ln, rc, ac, bc, gs⟩
  cases w <;> cases l <;> cases ic <;>
    simp [build_regex_pattern, List.append_assoc]

lemma mustEscape_isMeta (c : Char) (h : mustEscape c = true) : isMetaChar c = true := by
  simp only [mustEscape, Bool.or_eq_true, decide_eq_true_eq] at h
  simp only [isMetaChar, Bool.or_eq_true, decide_eq_true_eq]
  tauto

lemma scanRe_escape_append (cs : List Char) :
    ∀ tail : List Char, scanRe 0 tail = true → scanRe 0 (escapeRegex cs ++ tail) = true := by
  induction cs with
  | nil => intro tail h; simpa [escapeRegex] using h
  | cons c cs ih =>
    intro tail h
    by_cases hm : isMetaChar c = true
    · have hesc : escapableChar c = true := by simp [escapableChar, hm]
      simpa [escapeRegex, hm, scanRe, hesc] using ih tail h
    · have hb : c ≠ '\\' := by rintro rfl; exact hm (by decide)
      have hp : c ≠ '(' := by rintro rfl; exact hm (by decide)
      have hmne : mustEscape c = false := by
        cases hq : mustEscape c
        · rfl
        · exact absurd (mustEscape_isMeta c hq) hm
      simpa [escapeRegex, hm, scanRe, hb, hp, hmne] using ih tail h

lemma scanRe_escape_nil (q : List Char) : scanRe 0 (escapeRegex q) = true := by
  have h := scanRe_escape_append q [] rfl
  simpa using h

lemma scanRe_ci_cons (x : List Char) : scanRe 0 ('(' :: '?' :: 'i' :: ')' :: x) = scanRe 0 x := by
  simp [scanRe]

lemma scanRe_caret_cons (x : List Char) : scanRe 0 ('^' :: x) = scanRe 0 x := by
  simp [scanRe, mustEscape]

lemma scanRe_dollar_tail : scanRe 0 ['$'] = true := by decide

lemma scanRe_bsb_cons (x : List Char) : scanRe 0 ('\\' :: 'b' :: x) = scanRe 0 x := by
  simp [scanRe, escapableChar, isMetaChar]

/-- Claim C8: every pattern build_regex constructs lies in the accepted
fragment of the spec-modelled pattern syntax, so the external engine's
compilation succeeds and the unwrap at lib.rs 147 cannot panic — the
"engine rejects the pattern" branch is unreachable; equivalently,
compilation always succeeds and never needs to surface an error. -/
theorem C8_pattern_valid (cfg : Config) : checkRegex (build_regex_pattern cfg) = true := by
  rcases cfg with ⟨q, fp, ic, iv, w, l, cm, co, ln, rc, ac, bc, gs⟩
  cases w <;> cases l <;> cases ic
  · exact scanRe_escape_nil q.data
  · show scanRe 0 ('(' :: '?' :: 'i' :: ')' :: escapeRegex q.data) = true
    rw [scanRe_ci_cons]
    exact scanRe_escape_nil q.data
  · show scanRe 0 ('^' :: (escapeRegex q.data ++ ['$'])) = true
    rw [scanRe_caret_cons]
    exact scanRe_escape_append q.data ['$'] scanRe_dollar_tail
  · show scanRe 0 ('(' :: '?' :: 'i' :: ')' :: '^' :: (escapeRegex q.data ++ ['$'])) = true
    rw [scanRe_ci_cons, scanRe_caret_cons]
    exact scanRe_escape_append q.data ['$'] scanRe_dollar_tail
  · show scanRe 0 ('\\' :: 'b' :: (escapeRegex q.data ++ ['\\', 'b'])) = true
    rw [scanRe_bsb_cons]
    exact scanRe_escape_append q.data ['\\', 'b'] (by decide)
  · show scanRe 0 ('(' :: '?' :: 'i' :: ')' :: '\\' :: 'b' ::
      (escapeRegex q.data ++ ['\\', 'b'])) = true
    rw [scanRe_ci_cons, scanRe_bsb_cons]
    exact scanRe_escape_append q.data ['\\', 'b'] (by decide)
  · show scanRe 0 ('^' :: '\\' :: 'b' ::
      ((escapeRegex q.data ++ ['\\', 'b']) ++ ['$'])) = true
    rw [scanRe_caret_cons, scanRe_bsb_cons, List.append_assoc]
    exact scanRe_escape_append q.data (['\\', 'b'] ++ ['$']) (by decide)
  · show scanRe 0 ('(' :: '?' :: 'i' :: ')' :: '^' :: '\\' :: 'b' ::
      ((escapeRegex q.data ++ ['\\', 'b']) ++ ['$'])) = true
    rw [scanRe_ci_cons, scanRe_caret_cons, scanRe_bsb_cons, List.append_assoc]
    exact scanRe_escape_append q.data (['\\', 'b'] ++ ['$']) (by decide)
